import Mathlib

/-!
Verification of the traffic-sim four-way intersection engine.

Shallow embedding of the C sources:
  * `src/include/types.h`, `src/include/config.h` — data model and constants
  * `src/src/traffic_light.c`                     — per-road light FSM
  * `src/src/road.c`                              — queues, roads, intersection engine
  * controller translation unit (`PHASE_INFO`, `score_lane`, `phase_vehicle_count`,
    `controller_phase_score`, `controller_next_phase`)

Machine integers are modelled as `Nat` with explicit `% 2^w` reductions at the
operations where the C width matters (`uint8_t` accumulation in
`phase_vehicle_count`, `uint32_t` arithmetic in the controller scores).
Fallible operations return `Option`/`Bool` results, state is passed explicitly.
-/

namespace TrafficSim

/-! ## Constants (`src/include/config.h`) -/

def LANES_PER_ROAD : Nat := 3

def MAX_VEHICLES_PER_LANE : Nat := 64

def MAX_VEHICLE_ID_LEN : Nat := 32

def ROAD_COUNT : Nat := 4

def PHASE_COUNT : Nat := 6

def MAX_ROADS_PER_PHASE : Nat := 2

def MIN_GREEN_STEPS : Nat := 2

def MAX_GREEN_STEPS : Nat := 8

def YELLOW_STEPS : Nat := 1

def MAX_DEPARTURES_PER_STEP : Nat := MAX_ROADS_PER_PHASE * 2

/-- Modulus of C `uint32_t` arithmetic. -/
def U32 : Nat := 4294967296

/-- Modulus of C `uint8_t` arithmetic. -/
def U8 : Nat := 256

/-! ## Domain enums (`src/include/types.h`) -/

/-- `RoadDir`: the four approach roads plus the `ROAD_NONE` sentinel. -/
inductive RoadDir where
  | NORTH
  | SOUTH
  | EAST
  | WEST
  | NONE
  deriving DecidableEq, Repr, Fintype

/-- Index of a road in the C arrays `roads[ROAD_COUNT]` / `lights[ROAD_COUNT]`.
`ROAD_NONE` is never used as an array index by the code (every indexing site is
guarded); it is mapped to `0` to keep the function total. -/
def RoadDir.index : RoadDir → Fin 4
  | .NORTH => 0
  | .SOUTH => 1
  | .EAST => 2
  | .WEST => 3
  | .NONE => 0

/-- `MovementType` from `types.h`. -/
inductive MovementType where
  | STRAIGHT
  | RIGHT
  | LEFT
  | INVALID
  deriving DecidableEq, Repr, Fintype

/-- `Lane` from `types.h`: index of a queue within a road. -/
inductive Lane where
  | LEFT
  | STRAIGHT
  | RIGHT
  deriving DecidableEq, Repr, Fintype

/-- `LightState` from `types.h`. -/
inductive LightState where
  | RED
  | YELLOW
  | GREEN
  | GREEN_ARROW
  deriving DecidableEq, Repr, Fintype

/-- `Phase` from `types.h`. -/
inductive Phase where
  | NS
  | EW
  | N_ARROW
  | S_ARROW
  | E_ARROW
  | W_ARROW
  deriving DecidableEq, Repr, Fintype

/-! ## Traffic light FSM (`src/src/traffic_light.c`) -/

/-- `TrafficLight` struct: state plus remaining-step counter (`uint8_t`). -/
structure TrafficLight where
  state : LightState
  steps_remaining : Nat
  deriving DecidableEq, Repr

/-- `traffic_light_init`: RED with counter 0. -/
def traffic_light_init : TrafficLight := ⟨.RED, 0⟩

/-- `traffic_light_set_green`: unconditionally moves to GREEN with the given
duration (the C parameter is a `uint8_t`). -/
def traffic_light_set_green (_tl : TrafficLight) (duration : Nat) : TrafficLight :=
  ⟨.GREEN, duration⟩

/-- `traffic_light_set_green_arrow`: unconditionally moves to GREEN_ARROW. -/
def traffic_light_set_green_arrow (_tl : TrafficLight) (duration : Nat) : TrafficLight :=
  ⟨.GREEN_ARROW, duration⟩

/-- `traffic_light_tick`: RED is a no-op; otherwise decrement the counter
(floored at 0) and, when it has reached 0, transition
GREEN/GREEN_ARROW → YELLOW(`YELLOW_STEPS`) and YELLOW → RED. -/
def traffic_light_tick (tl : TrafficLight) : TrafficLight :=
  if tl.state = .RED then tl
  else
    let s := if 0 < tl.steps_remaining then tl.steps_remaining - 1 else tl.steps_remaining
    if s = 0 then
      match tl.state with
      | .GREEN => ⟨.YELLOW, YELLOW_STEPS⟩
      | .GREEN_ARROW => ⟨.YELLOW, YELLOW_STEPS⟩
      | .YELLOW => ⟨.RED, s⟩
      | .RED => ⟨.RED, s⟩
    else ⟨tl.state, s⟩

/-- `traffic_light_is_green`: GREEN or GREEN_ARROW. -/
def traffic_light_is_green (tl : TrafficLight) : Bool :=
  tl.state = .GREEN || tl.state = .GREEN_ARROW

/-- `traffic_light_is_yellow`. -/
def traffic_light_is_yellow (tl : TrafficLight) : Bool :=
  tl.state = .YELLOW

/-- `traffic_light_is_red`. -/
def traffic_light_is_red (tl : TrafficLight) : Bool :=
  tl.state = .RED

/-! ## Vehicles and lane queues (`types.h`, `src/src/road.c`) -/

/-- `Vehicle` struct: bounded id string, destination road, cached movement,
and the step index at which the vehicle was enqueued (`uint32_t`). -/
structure Vehicle where
  id : String
  end_road : RoadDir
  movement : MovementType
  enqueue_step : Nat
  deriving DecidableEq, Repr

instance : Inhabited Vehicle := ⟨⟨"", .NONE, .INVALID, 0⟩⟩

/-- `VehicleQueue` struct: 64-slot ring buffer with `head`/`tail`/`count`
(`uint8_t` fields). The backing array is modelled as a function; the code only
ever touches indices `< MAX_VEHICLES_PER_LANE`. -/
structure VehicleQueue where
  buf : Nat → Vehicle
  head : Nat
  tail : Nat
  count : Nat

/-- `queue_init`: zero `head`/`tail`/`count`, the buffer contents are left as
they were (the C function does not touch `buf`). -/
def queue_init (buf : Nat → Vehicle) : VehicleQueue :=
  ⟨buf, 0, 0, 0⟩

/-- `queue_is_empty`. -/
def queue_is_empty (q : VehicleQueue) : Bool :=
  q.count = 0

/-- `queue_is_full`: `count >= MAX_VEHICLES_PER_LANE`. -/
def queue_is_full (q : VehicleQueue) : Bool :=
  MAX_VEHICLES_PER_LANE ≤ q.count

/-- `queue_enqueue`: fail on a full queue, else write at `tail`, advance `tail`
modulo the capacity and bump `count`. -/
def queue_enqueue (q : VehicleQueue) (v : Vehicle) : VehicleQueue × Bool :=
  if queue_is_full q then (q, false)
  else
    (⟨Function.update q.buf q.tail v, q.head,
      (q.tail + 1) % MAX_VEHICLES_PER_LANE, q.count + 1⟩, true)

/-- `queue_dequeue`: fail on an empty queue, else return the vehicle at `head`,
advance `head` modulo the capacity and drop `count`. -/
def queue_dequeue (q : VehicleQueue) : VehicleQueue × Option Vehicle :=
  if queue_is_empty q then (q, none)
  else
    (⟨q.buf, (q.head + 1) % MAX_VEHICLES_PER_LANE, q.tail, q.count - 1⟩,
     some (q.buf q.head))

/-- `queue_peek`: the front vehicle of a non-empty queue, without mutation. -/
def queue_peek (q : VehicleQueue) : Option Vehicle :=
  if queue_is_empty q then none else some (q.buf q.head)

/-- Abstraction: the queue contents in FIFO order (front first). -/
def VehicleQueue.toList (q : VehicleQueue) : List Vehicle :=
  (List.range q.count).map (fun i => q.buf ((q.head + i) % MAX_VEHICLES_PER_LANE))

/-- Structural invariant of a ring-buffer queue. -/
def QInv (q : VehicleQueue) : Prop :=
  q.count ≤ MAX_VEHICLES_PER_LANE ∧ q.head < MAX_VEHICLES_PER_LANE ∧
    q.tail = (q.head + q.count) % MAX_VEHICLES_PER_LANE

/-- A single client operation on one lane queue. -/
inductive QueueOp where
  | enq (v : Vehicle)
  | deq
  deriving Repr

/-- Run a sequence of operations against the ring-buffer queue, collecting the
successfully dequeued vehicles in order. -/
def runOps : VehicleQueue → List QueueOp → VehicleQueue × List Vehicle
  | q, [] => (q, [])
  | q, .enq v :: rest => runOps (queue_enqueue q v).1 rest
  | q, .deq :: rest =>
    let d := queue_dequeue q
    let r := runOps d.1 rest
    (r.1, d.2.toList ++ r.2)

/-- Reference model of a bounded FIFO: a plain list, front first. -/
def modelEnq (m : List Vehicle) (v : Vehicle) : List Vehicle :=
  if m.length < MAX_VEHICLES_PER_LANE then m ++ [v] else m

/-- Run the same operations against the reference bounded FIFO. -/
def modelRun : List Vehicle → List QueueOp → List Vehicle × List Vehicle
  | m, [] => (m, [])
  | m, .enq v :: rest => modelRun (modelEnq m v) rest
  | m, .deq :: rest =>
    let r := modelRun m.tail rest
    (r.1, m.head?.toList ++ r.2)

/-! ## Movement classification and lanes (`src/src/road.c`) -/

/-- `movement_type`: the 4×4 right-hand-traffic lookup table; any `ROAD_NONE`
argument or a U-turn is INVALID (the C guard `start >= ROAD_NONE || end >=
ROAD_NONE || start == end`). -/
def movement_type (start dest : RoadDir) : MovementType :=
  if start = .NONE ∨ dest = .NONE ∨ start = dest then .INVALID
  else
    match start, dest with
    | .NORTH, .SOUTH => .STRAIGHT
    | .NORTH, .EAST => .LEFT
    | .NORTH, .WEST => .RIGHT
    | .SOUTH, .NORTH => .STRAIGHT
    | .SOUTH, .EAST => .RIGHT
    | .SOUTH, .WEST => .LEFT
    | .EAST, .NORTH => .RIGHT
    | .EAST, .SOUTH => .LEFT
    | .EAST, .WEST => .STRAIGHT
    | .WEST, .NORTH => .LEFT
    | .WEST, .SOUTH => .RIGHT
    | .WEST, .EAST => .STRAIGHT
    | _, _ => .INVALID

/-- `lane_for_movement`: LEFT→LANE_LEFT, STRAIGHT→LANE_STRAIGHT,
RIGHT→LANE_RIGHT; the `default` branch of the C switch returns LANE_LEFT. -/
def lane_for_movement : MovementType → Lane
  | .LEFT => .LEFT
  | .STRAIGHT => .STRAIGHT
  | .RIGHT => .RIGHT
  | .INVALID => .LEFT

/-! ## Roads (`src/src/road.c`) -/

/-- `Road` struct: three lane queues indexed by `Lane`. -/
structure Road where
  lanes : Lane → VehicleQueue

/-- `road_init`: all three queues initialised (the C leaves the backing
arrays' contents alone; the code never reads a slot it has not written, so the
model fills them with the default vehicle). -/
def road_init : Road :=
  ⟨fun _ => queue_init (fun _ => default)⟩

/-- `road_enqueue`: route to the lane implied by the vehicle's cached
movement. -/
def road_enqueue (r : Road) (v : Vehicle) : Road × Bool :=
  let lane := lane_for_movement v.movement
  let e := queue_enqueue (r.lanes lane) v
  (⟨Function.update r.lanes lane e.1⟩, e.2)

/-- `road_dequeue_lane`. -/
def road_dequeue_lane (r : Road) (lane : Lane) : Road × Option Vehicle :=
  let d := queue_dequeue (r.lanes lane)
  (⟨Function.update r.lanes lane d.1⟩, d.2)

/-- `road_peek_lane`. -/
def road_peek_lane (r : Road) (lane : Lane) : Option Vehicle :=
  queue_peek (r.lanes lane)

/-- `road_lane_count`. -/
def road_lane_count (r : Road) (lane : Lane) : Nat :=
  (r.lanes lane).count

/-- `road_total_count`: `uint8_t` accumulation over the three lanes, each
addition wrapping modulo 256. -/
def road_total_count (r : Road) : Nat :=
  [Lane.LEFT, Lane.STRAIGHT, Lane.RIGHT].foldl
    (fun total lane => (total + road_lane_count r lane) % U8) 0

/-! ## Phase metadata (controller translation unit) -/

/-- `PhaseInfo`: the roads a phase activates and whether it is an arrow
(left-lane) phase. The C struct stores a 2-slot array plus `road_count`; the
list holds exactly the first `road_count` entries (the `ROAD_NONE` padding of
single-road phases is never read by any loop). -/
structure PhaseInfo where
  roads : List RoadDir
  is_arrow : Bool

/-- `PHASE_INFO` metadata table. -/
def PHASE_INFO : Phase → PhaseInfo
  | .NS => ⟨[.NORTH, .SOUTH], false⟩
  | .EW => ⟨[.EAST, .WEST], false⟩
  | .N_ARROW => ⟨[.NORTH], true⟩
  | .S_ARROW => ⟨[.SOUTH], true⟩
  | .E_ARROW => ⟨[.EAST], true⟩
  | .W_ARROW => ⟨[.WEST], true⟩

/-- Loop order of `for (p = 0; p < PHASE_COUNT; p++)`. -/
def phaseList : List Phase :=
  [.NS, .EW, .N_ARROW, .S_ARROW, .E_ARROW, .W_ARROW]

/-! ## Intersection state (`types.h`) -/

/-- `Intersection` struct: four roads, four lights, active phase, remaining
steps of that phase (`uint8_t`), the unused `in_yellow_transition` flag, and
the global step counter (`uint32_t`). -/
structure Intersection where
  roads : Fin 4 → Road
  lights : Fin 4 → TrafficLight
  current_phase : Phase
  phase_steps_remaining : Nat
  in_yellow_transition : Bool
  step_count : Nat

/-- `intersection_init`. -/
def intersection_init : Intersection :=
  ⟨fun _ => road_init, fun _ => traffic_light_init, .NS, 0, false, 0⟩

/-! ## Controller (`score_lane`, `phase_vehicle_count`,
`controller_phase_score`, `controller_next_phase`) -/

/-- `PhaseDecision`: recommended phase and green duration. -/
structure PhaseDecision where
  phase : Phase
  duration : Nat
  deriving DecidableEq, Repr

/-- `score_lane`: `count * (1 + wait)` in `uint32_t` arithmetic, where `wait`
is the `uint32_t` difference `step_count - front.enqueue_step`; an empty lane
scores 0. -/
def score_lane (road : Road) (lane : Lane) (step_count : Nat) : Nat :=
  let count := road_lane_count road lane
  if count = 0 then 0
  else
    let wait :=
      match road_peek_lane road lane with
      | some front => (step_count % U32 + (U32 - front.enqueue_step % U32)) % U32
      | none => 0
    ((count % U32) * ((1 + wait) % U32)) % U32

/-- `phase_vehicle_count`: total vehicles in the lanes the phase serves,
accumulated in a `uint8_t` (each addition wraps modulo 256). -/
def phase_vehicle_count (inter : Intersection) (phase : Phase) : Nat :=
  let info := PHASE_INFO phase
  info.roads.foldl
    (fun total dir =>
      let road := inter.roads dir.index
      if info.is_arrow then (total + road_lane_count road .LEFT) % U8
      else
        ((total + road_lane_count road .STRAIGHT) % U8 + road_lane_count road .RIGHT) % U8)
    0

/-- `controller_phase_score`: sum of the served lanes' scores in `uint32_t`
arithmetic. -/
def controller_phase_score (inter : Intersection) (phase : Phase) : Nat :=
  let info := PHASE_INFO phase
  info.roads.foldl
    (fun score dir =>
      let road := inter.roads dir.index
      if info.is_arrow then (score + score_lane road .LEFT inter.step_count) % U32
      else
        ((score + score_lane road .STRAIGHT inter.step_count) % U32 +
          score_lane road .RIGHT inter.step_count) % U32)
    0

/-- `controller_next_phase`: best-so-far seeded with the current phase's own
score, strict improvement required to switch; duration clamps the chosen
phase's vehicle count into `[MIN_GREEN_STEPS, MAX_GREEN_STEPS]`. -/
def controller_next_phase (inter : Intersection) : PhaseDecision :=
  let seed : Phase × Nat :=
    (inter.current_phase, controller_phase_score inter inter.current_phase)
  let best :=
    phaseList.foldl
      (fun best p =>
        let score := controller_phase_score inter p
        if best.2 < score then (p, score) else best)
      seed
  let count := phase_vehicle_count inter best.1
  let duration :=
    if count < MIN_GREEN_STEPS then MIN_GREEN_STEPS
    else if MAX_GREEN_STEPS < count then MAX_GREEN_STEPS
    else count
  ⟨best.1, duration⟩

/-! ## Intersection engine (`src/src/road.c`) -/

/-- `apply_phase` light loop: set every road of the phase to GREEN or
GREEN_ARROW for the decided duration. -/
def set_phase_lights (lights : Fin 4 → TrafficLight) (info : PhaseInfo)
    (duration : Nat) : Fin 4 → TrafficLight :=
  info.roads.foldl
    (fun ls dir =>
      if info.is_arrow then
        Function.update ls dir.index (traffic_light_set_green_arrow (ls dir.index) duration)
      else
        Function.update ls dir.index (traffic_light_set_green (ls dir.index) duration))
    lights

/-- `apply_phase`: activate the decision's lights and record phase, duration
and the (vestigial) yellow-transition flag. -/
def apply_phase (inter : Intersection) (decision : PhaseDecision) : Intersection :=
  { inter with
    lights := set_phase_lights inter.lights (PHASE_INFO decision.phase) decision.duration
    current_phase := decision.phase
    phase_steps_remaining := decision.duration
    in_yellow_transition := false }

/-- One iteration of the release loop of `intersection_step`: for a road of
the active phase whose light is green, dequeue the left lane (arrow phase) or
the straight then the right lane (main phase), appending the vehicles that
were present. Only the roads array is mutated; the lights are read-only here. -/
def release_road (lights : Fin 4 → TrafficLight) (is_arrow : Bool)
    (acc : (Fin 4 → Road) × List Vehicle) (dir : RoadDir) :
    (Fin 4 → Road) × List Vehicle :=
  if traffic_light_is_green (lights dir.index) then
    if is_arrow then
      let d := road_dequeue_lane (acc.1 dir.index) .LEFT
      (Function.update acc.1 dir.index d.1, acc.2 ++ d.2.toList)
    else
      let d1 := road_dequeue_lane (acc.1 dir.index) .STRAIGHT
      let d2 := road_dequeue_lane d1.1 .RIGHT
      (Function.update acc.1 dir.index d2.1, acc.2 ++ d1.2.toList ++ d2.2.toList)
  else acc

/-- `intersection_step`: (1) repick and apply a phase when the counter is 0,
(2) release front vehicles of the active phase's green roads, (3) tick all
four lights, (4) decrement the phase counter (floored at 0) and advance the
`uint32_t` step counter. Returns the departed vehicles in release order. -/
def intersection_step (inter : Intersection) : Intersection × List Vehicle :=
  let inter1 :=
    if inter.phase_steps_remaining = 0 then
      apply_phase inter (controller_next_phase inter)
    else inter
  let info := PHASE_INFO inter1.current_phase
  let rel := info.roads.foldl (release_road inter1.lights info.is_arrow) (inter1.roads, [])
  ({ inter1 with
      roads := rel.1
      lights := fun i => traffic_light_tick (inter1.lights i)
      phase_steps_remaining :=
        if 0 < inter1.phase_steps_remaining then inter1.phase_steps_remaining - 1
        else inter1.phase_steps_remaining
      step_count := (inter1.step_count + 1) % U32 },
   rel.2)

/-- `intersection_add_vehicle`: classify, reject INVALID, else enqueue into
the start road with the current step counter stamped on the vehicle (the C
truncates the id to `MAX_VEHICLE_ID_LEN - 1` characters). -/
def intersection_add_vehicle (inter : Intersection) (start dest : RoadDir)
    (id : String) : Intersection × Bool :=
  let mv := movement_type start dest
  if mv = .INVALID then (inter, false)
  else
    let v : Vehicle := ⟨id.take (MAX_VEHICLE_ID_LEN - 1), dest, mv, inter.step_count⟩
    let e := road_enqueue (inter.roads start.index) v
    ({ inter with roads := Function.update inter.roads start.index e.1 }, e.2)

/-- Lane-to-movement table of `intersection_add_vehicle_by_lane`. -/
def lane_to_movement : Lane → MovementType
  | .LEFT => .LEFT
  | .STRAIGHT => .STRAIGHT
  | .RIGHT => .RIGHT

/-- `intersection_add_vehicle_by_lane`: sensor-driven variant; the destination
is the `ROAD_NONE` sentinel and the movement is derived from the lane. The C
guard `road >= ROAD_COUNT` rejects exactly `ROAD_NONE`; `lane` is always in
range by type. -/
def intersection_add_vehicle_by_lane (inter : Intersection) (road : RoadDir)
    (lane : Lane) (id : String) : Intersection × Bool :=
  if road = .NONE then (inter, false)
  else
    let v : Vehicle := ⟨id.take (MAX_VEHICLE_ID_LEN - 1), .NONE, lane_to_movement lane,
      inter.step_count⟩
    let e := queue_enqueue ((inter.roads road.index).lanes lane) v
    ({ inter with
        roads := Function.update inter.roads road.index
          ⟨Function.update (inter.roads road.index).lanes lane e.1⟩ }, e.2)

/-- `intersection_light_state`. -/
def intersection_light_state (inter : Intersection) (road : RoadDir) : LightState :=
  (inter.lights road.index).state

/-- `intersection_total_waiting`: `uint8_t` accumulation of the four roads'
totals. -/
def intersection_total_waiting (inter : Intersection) : Nat :=
  ([0, 1, 2, 3] : List (Fin 4)).foldl
    (fun total i => (total + road_total_count (inter.roads i)) % U8) 0

/-! ## Example states -/

/-- Example state: one left-turn vehicle waiting on East and one on West (equal
top scores for the two arrow phases), current phase NS with empty lanes. -/
def tieState : Intersection :=
  { intersection_init with
    roads :=
      Function.update
        (Function.update intersection_init.roads RoadDir.EAST.index
          ⟨Function.update road_init.lanes .LEFT ⟨fun _ => ⟨"e", .NONE, .LEFT, 0⟩, 0, 1, 1⟩⟩)
        RoadDir.WEST.index
        ⟨Function.update road_init.lanes .LEFT ⟨fun _ => ⟨"w", .NONE, .LEFT, 0⟩, 0, 1, 1⟩⟩ }

/-- A lane queue filled to capacity with 64 vehicles. -/
def fullLane : VehicleQueue :=
  ⟨fun _ => ⟨"x", .NONE, .STRAIGHT, 0⟩, 0, 0, 64⟩

/-- Example state: all four lanes served by the NS phase (North/South straight
and right) are full, 256 vehicles in total. -/
def fullLoadState : Intersection :=
  { intersection_init with
    roads :=
      Function.update
        (Function.update intersection_init.roads RoadDir.NORTH.index
          ⟨fun l => if l = .LEFT then queue_init (fun _ => default) else fullLane⟩)
        RoadDir.SOUTH.index
        ⟨fun l => if l = .LEFT then queue_init (fun _ => default) else fullLane⟩ }

/-! ## Reachability and the light invariant (C1, C8, C3) -/

/-- Array indices of the roads a phase activates. -/
def roadIdxs (p : Phase) : List (Fin 4) :=
  (PHASE_INFO p).roads.map RoadDir.index

/-- The green light state `apply_phase` installs for a phase. -/
def phaseKind (info : PhaseInfo) : LightState :=
  if info.is_arrow then .GREEN_ARROW else .GREEN

/-- Intersection states reachable from `intersection_init` through the public
mutators. -/
inductive Reachable : Intersection → Prop where
  | init : Reachable intersection_init
  | add : ∀ (s : Intersection) (start dest : RoadDir) (id : String),
      Reachable s → Reachable (intersection_add_vehicle s start dest id).1
  | addByLane : ∀ (s : Intersection) (road : RoadDir) (lane : Lane) (id : String),
      Reachable s → Reachable (intersection_add_vehicle_by_lane s road lane id).1
  | step : ∀ s : Intersection, Reachable s → Reachable (intersection_step s).1

/-- Inductive invariant on the lights: every light is RED, or YELLOW in its
final yellow step, or green — and a green light always belongs to the current
phase, shows the phase's kind of green and carries exactly the phase's
remaining steps; conversely, while the phase has steps remaining all its roads
are green in lockstep. -/
def LightInv (s : Intersection) : Prop :=
  (∀ i : Fin 4,
    (s.lights i).state = .RED ∨
    ((s.lights i).state = .YELLOW ∧ (s.lights i).steps_remaining = 1) ∨
    ((s.lights i).state = phaseKind (PHASE_INFO s.current_phase) ∧
      traffic_light_is_green (s.lights i) = true ∧
      (s.lights i).steps_remaining = s.phase_steps_remaining ∧
      1 ≤ s.phase_steps_remaining ∧
      i ∈ roadIdxs s.current_phase)) ∧
  (1 ≤ s.phase_steps_remaining → ∀ i ∈ roadIdxs s.current_phase,
    (s.lights i).state = phaseKind (PHASE_INFO s.current_phase) ∧
    (s.lights i).steps_remaining = s.phase_steps_remaining)

/-- The state reached from `intersection_init` by two empty steps: the NS
phase has expired (its lights have just turned YELLOW) and the controller is
about to re-activate NS. -/
def twoStepState : Intersection :=
  (intersection_step (intersection_step intersection_init).1).1

/-- The set of road indices whose light is currently green (GREEN or
GREEN_ARROW). -/
def green_set (s : Intersection) : Finset (Fin 4) :=
  Finset.univ.filter (fun i => traffic_light_is_green (s.lights i) = true)

/-- Modelled from the spec's release rule: the lanes a phase serves — only the
left lane for an arrow phase; the straight and the right lane for a main
phase. -/
def servedLanes (arrow : Bool) : List Lane :=
  if arrow then [.LEFT] else [.STRAIGHT, .RIGHT]

/-- The phase whose lights are active during the release part of
`intersection_step`: the freshly decided phase when the counter hit 0, the
standing phase otherwise. -/
def activePhase (s : Intersection) : Phase :=
  if s.phase_steps_remaining = 0 then (controller_next_phase s).phase
  else s.current_phase

/-- Two vehicles enqueued from South and North on the fresh intersection. -/
def addedState : Intersection :=
  (intersection_add_vehicle
    (intersection_add_vehicle intersection_init .SOUTH .NORTH "v1").1
    .NORTH .SOUTH "v2").1

/-! ### Pointwise tick lemmas -/

lemma tick_red (tl : TrafficLight) (h : tl.state = .RED) :
    traffic_light_tick tl = tl := by
  simp [traffic_light_tick, h]

lemma tick_green_succ_succ (n : Nat) :
    traffic_light_tick ⟨.GREEN, n + 2⟩ = ⟨.GREEN, n + 1⟩ := by
  simp [traffic_light_tick]

lemma tick_green_one :
    traffic_light_tick ⟨.GREEN, 1⟩ = ⟨.YELLOW, YELLOW_STEPS⟩ := by
  simp [traffic_light_tick]

lemma tick_green_arrow_succ_succ (n : Nat) :
    traffic_light_tick ⟨.GREEN_ARROW, n + 2⟩ = ⟨.GREEN_ARROW, n + 1⟩ := by
  simp [traffic_light_tick]

lemma tick_green_arrow_one :
    traffic_light_tick ⟨.GREEN_ARROW, 1⟩ = ⟨.YELLOW, YELLOW_STEPS⟩ := by
  simp [traffic_light_tick]

lemma tick_yellow_one :
    traffic_light_tick ⟨.YELLOW, 1⟩ = ⟨.RED, 0⟩ := by
  simp [traffic_light_tick]

/-- After `k < N` ticks a light set green for `N` is still GREEN with `N - k`
steps remaining. -/
lemma tick_iter_green (N k : Nat) (hk : k < N) :
    traffic_light_tick^[k] ⟨.GREEN, N⟩ = ⟨.GREEN, N - k⟩ := by
  induction k with
  | zero => simp
  | succ k ih =>
    have hk' : k < N := Nat.lt_of_succ_lt hk
    rw [Function.iterate_succ_apply', ih hk']
    have h2 : 2 ≤ N - k := by omega
    obtain ⟨m, hm⟩ : ∃ m, N - k = m + 2 := ⟨N - k - 2, by omega⟩
    rw [hm, tick_green_succ_succ]
    have hms : N - (k + 1) = m + 1 := by omega
    rw [hms]

/-- After exactly `N ≥ 1` ticks the light is YELLOW with `YELLOW_STEPS` left. -/
lemma tick_iter_green_yellow (N : Nat) (hN : 1 ≤ N) :
    traffic_light_tick^[N] ⟨.GREEN, N⟩ = ⟨.YELLOW, YELLOW_STEPS⟩ := by
  obtain ⟨k, rfl⟩ : ∃ k, N = k + 1 := ⟨N - 1, by omega⟩
  rw [Function.iterate_succ_apply', tick_iter_green (k + 1) k (by omega)]
  have : k + 1 - k = 1 := by omega
  rw [this, tick_green_one]

/-- Iterating from YELLOW(1): one more tick reaches RED, which is absorbing. -/
lemma tick_iter_yellow_red (j : Nat) (hj : 1 ≤ j) :
    traffic_light_tick^[j] ⟨.YELLOW, 1⟩ = ⟨.RED, 0⟩ := by
  induction j with
  | zero => omega
  | succ j ih =>
    rcases Nat.eq_or_lt_of_le hj with h | h
    · rw [← h]
      simpa using tick_yellow_one
    · have hj' : 1 ≤ j := by omega
      rw [Function.iterate_succ_apply', ih hj']
      exact tick_red _ rfl

/-- Arrow-light analogue of `tick_iter_green`. -/
lemma tick_iter_green_arrow (N k : Nat) (hk : k < N) :
    traffic_light_tick^[k] ⟨.GREEN_ARROW, N⟩ = ⟨.GREEN_ARROW, N - k⟩ := by
  induction k with
  | zero => simp
  | succ k ih =>
    have hk' : k < N := Nat.lt_of_succ_lt hk
    rw [Function.iterate_succ_apply', ih hk']
    have h2 : 2 ≤ N - k := by omega
    obtain ⟨m, hm⟩ : ∃ m, N - k = m + 2 := ⟨N - k - 2, by omega⟩
    rw [hm, tick_green_arrow_succ_succ]
    have hms : N - (k + 1) = m + 1 := by omega
    rw [hms]

/-- Arrow-light analogue of `tick_iter_green_yellow`. -/
lemma tick_iter_green_arrow_yellow (N : Nat) (hN : 1 ≤ N) :
    traffic_light_tick^[N] ⟨.GREEN_ARROW, N⟩ = ⟨.YELLOW, YELLOW_STEPS⟩ := by
  obtain ⟨k, rfl⟩ : ∃ k, N = k + 1 := ⟨N - 1, by omega⟩
  rw [Function.iterate_succ_apply', tick_iter_green_arrow (k + 1) k (by omega)]
  have : k + 1 - k = 1 := by omega
  rw [this, tick_green_arrow_one]

/-- Decompose an iteration count `N ≤ k` through the instant `N`. -/
lemma tick_iter_split (f : TrafficLight → TrafficLight) (N k : Nat) (hk : N ≤ k)
    (x : TrafficLight) : f^[k] x = f^[k - N] (f^[N] x) := by
  conv_lhs => rw [show k = (k - N) + N by omega]
  rw [Function.iterate_add_apply]

/-- C2: a light set green (or green-arrow) for `N ≥ 1` steps is `is_green` for
exactly the first `N` ticks, becomes YELLOW on tick `N` (never earlier), stays
YELLOW for exactly `YELLOW_STEPS` ticks, is RED from tick `N + YELLOW_STEPS`
onwards, and ticking a RED light never changes it. -/
theorem C2_traffic_light_exact_durations (tl : TrafficLight) (N : Nat)
    (h1 : 1 ≤ N) (h255 : N ≤ 255) :
    (∀ k, k < N →
      traffic_light_is_green (traffic_light_tick^[k] (traffic_light_set_green tl N)) = true ∧
      (traffic_light_tick^[k] (traffic_light_set_green tl N)).state = .GREEN) ∧
    ((traffic_light_tick^[N] (traffic_light_set_green tl N)).state = .YELLOW) ∧
    (∀ k, N ≤ k → k < N + YELLOW_STEPS →
      (traffic_light_tick^[k] (traffic_light_set_green tl N)).state = .YELLOW) ∧
    (∀ k, N + YELLOW_STEPS ≤ k →
      (traffic_light_tick^[k] (traffic_light_set_green tl N)).state = .RED) ∧
    (∀ k, N ≤ k →
      traffic_light_is_green (traffic_light_tick^[k] (traffic_light_set_green tl N)) = false) ∧
    (∀ k, k < N →
      traffic_light_is_green
        (traffic_light_tick^[k] (traffic_light_set_green_arrow tl N)) = true) ∧
    ((traffic_light_tick^[N] (traffic_light_set_green_arrow tl N)).state = .YELLOW) ∧
    (∀ k, N + YELLOW_STEPS ≤ k →
      (traffic_light_tick^[k] (traffic_light_set_green_arrow tl N)).state = .RED) ∧
    (∀ k, N ≤ k →
      traffic_light_is_green
        (traffic_light_tick^[k] (traffic_light_set_green_arrow tl N)) = false) ∧
    (∀ tl' : TrafficLight, tl'.state = .RED → traffic_light_tick tl' = tl') := by
  have hg : traffic_light_set_green tl N = ⟨.GREEN, N⟩ := rfl
  have ha : traffic_light_set_green_arrow tl N = ⟨.GREEN_ARROW, N⟩ := rfl
  have hyN : traffic_light_tick^[N] (⟨.GREEN, N⟩ : TrafficLight) = ⟨.YELLOW, YELLOW_STEPS⟩ :=
    tick_iter_green_yellow N h1
  have hyNa : traffic_light_tick^[N] (⟨.GREEN_ARROW, N⟩ : TrafficLight) =
      ⟨.YELLOW, YELLOW_STEPS⟩ := tick_iter_green_arrow_yellow N h1
  have hred : ∀ k, N + YELLOW_STEPS ≤ k →
      traffic_light_tick^[k] (⟨.GREEN, N⟩ : TrafficLight) = ⟨.RED, 0⟩ := by
    intro k hk
    rw [tick_iter_split _ N k (by omega), hyN]
    exact tick_iter_yellow_red (k - N) (by simp [YELLOW_STEPS] at hk ⊢; omega)
  have hreda : ∀ k, N + YELLOW_STEPS ≤ k →
      traffic_light_tick^[k] (⟨.GREEN_ARROW, N⟩ : TrafficLight) = ⟨.RED, 0⟩ := by
    intro k hk
    rw [tick_iter_split _ N k (by omega), hyNa]
    exact tick_iter_yellow_red (k - N) (by simp [YELLOW_STEPS] at hk ⊢; omega)
  refine ⟨?_, ?_, ?_, ?_, ?_, ?_, ?_, ?_, ?_, ?_⟩
  · intro k hk
    rw [hg, tick_iter_green N k hk]
    exact ⟨rfl, rfl⟩
  · rw [hg, hyN]
  · intro k hkl hkr
    have hk : k = N := by simp [YELLOW_STEPS] at hkr; omega
    subst hk
    rw [hg, hyN]
  · intro k hk
    rw [hg, hred k hk]
  · intro k hk
    rcases Nat.eq_or_lt_of_le hk with h | h
    · rw [hg, ← h, hyN]
      rfl
    · rw [hg, hred k (by simp [YELLOW_STEPS]; omega)]
      rfl
  · intro k hk
    rw [ha, tick_iter_green_arrow N k hk]
    rfl
  · rw [ha, hyNa]
  · intro k hk
    rw [ha, hreda k hk]
  · intro k hk
    rcases Nat.eq_or_lt_of_le hk with h | h
    · rw [ha, ← h, hyNa]
      rfl
    · rw [ha, hreda k (by simp [YELLOW_STEPS]; omega)]
      rfl
  · intro tl' h
    exact tick_red tl' h

/-- Witness for C2 at `N = 3` on the freshly initialised light. -/
theorem C2_traffic_light_exact_durations_witness :
    (traffic_light_tick^[2]
      (traffic_light_set_green traffic_light_init 3)).state = .GREEN ∧
    (traffic_light_tick^[3]
      (traffic_light_set_green traffic_light_init 3)).state = .YELLOW ∧
    (traffic_light_tick^[4]
      (traffic_light_set_green traffic_light_init 3)).state = .RED := by
  have h := C2_traffic_light_exact_durations traffic_light_init 3 (by decide) (by decide)
  exact ⟨(h.1 2 (by decide)).2, h.2.1, h.2.2.2.1 4 (by decide)⟩

/-- Two in-window ring indices with distance `< 64` stay distinct modulo 64. -/
lemma ring_index_ne (a b : Nat) (hab : a < b) (hw : b - a < MAX_VEHICLES_PER_LANE) :
    a % MAX_VEHICLES_PER_LANE ≠ b % MAX_VEHICLES_PER_LANE := by
  intro h
  have hmod : a ≡ b [MOD MAX_VEHICLES_PER_LANE] := h
  have hdvd : MAX_VEHICLES_PER_LANE ∣ b - a := (Nat.modEq_iff_dvd' (le_of_lt hab)).mp hmod
  have hpos : 0 < b - a := by omega
  have := Nat.le_of_dvd hpos hdvd
  omega

lemma toList_length (q : VehicleQueue) : q.toList.length = q.count := by
  simp [VehicleQueue.toList]

lemma toList_getElem (q : VehicleQueue) (i : Nat) (h : i < q.toList.length) :
    q.toList[i] = q.buf ((q.head + i) % MAX_VEHICLES_PER_LANE) := by
  simp [VehicleQueue.toList]

/-- Successful enqueue: appends to the abstract list and keeps the invariant. -/
lemma queue_enqueue_ok (q : VehicleQueue) (v : Vehicle) (hq : QInv q)
    (hnf : q.count < MAX_VEHICLES_PER_LANE) :
    (queue_enqueue q v).2 = true ∧ QInv (queue_enqueue q v).1 ∧
      (queue_enqueue q v).1.toList = q.toList ++ [v] := by
  obtain ⟨hc, hh, ht⟩ := hq
  have hfull : queue_is_full q = false := by
    simp [queue_is_full]
    omega
  have h64 : MAX_VEHICLES_PER_LANE = 64 := rfl
  refine ⟨by simp [queue_enqueue, hfull], ⟨?_, ?_, ?_⟩, ?_⟩
  · simp [queue_enqueue, hfull]
    omega
  · simpa [queue_enqueue, hfull] using hh
  · simp [queue_enqueue, hfull, ht, h64]
    omega
  · apply List.ext_getElem
    · simp [queue_enqueue, hfull, toList_length]
    · intro i h1 h2
      rw [toList_getElem]
      have hi : i < q.count + 1 := by
        simpa [queue_enqueue, hfull, toList_length] using h1
      rcases Nat.lt_or_ge i q.count with hlt | hge
      · have hne : (q.head + i) % MAX_VEHICLES_PER_LANE ≠ q.tail := by
          rw [ht]
          exact ring_index_ne (q.head + i) (q.head + q.count) (by omega) (by omega)
        have hL : ((queue_enqueue q v).1.buf) = Function.update q.buf q.tail v := by
          simp [queue_enqueue, hfull]
        have hH : ((queue_enqueue q v).1.head) = q.head := by
          simp [queue_enqueue, hfull]
        rw [hL, hH, Function.update_noteq hne]
        rw [List.getElem_append_left (by simpa [toList_length] using hlt)]
        rw [toList_getElem]
      · have hie : i = q.count := by omega
        subst hie
        have hL : ((queue_enqueue q v).1.buf) = Function.update q.buf q.tail v := by
          simp [queue_enqueue, hfull]
        have hH : ((queue_enqueue q v).1.head) = q.head := by
          simp [queue_enqueue, hfull]
        rw [hL, hH, ← ht, Function.update_same]
        rw [List.getElem_append_right (by simp [toList_length])]
        simp [toList_length]

/-- Successful dequeue: removes the front of the abstract list. -/
lemma queue_dequeue_ok (q : VehicleQueue) (hq : QInv q) (hne : 0 < q.count) :
    (queue_dequeue q).2 = q.toList.head? ∧ QInv (queue_dequeue q).1 ∧
      (queue_dequeue q).1.toList = q.toList.tail := by
  obtain ⟨hc, hh, ht⟩ := hq
  have hemp : queue_is_empty q = false := by
    simp [queue_is_empty]
    omega
  have h64 : MAX_VEHICLES_PER_LANE = 64 := rfl
  have hhd : q.toList.head? = some (q.buf q.head) := by
    have hlen : 0 < q.toList.length := by
      simp [toList_length]
      omega
    rw [List.head?_eq_getElem?, List.getElem?_eq_getElem hlen, toList_getElem]
    have : (q.head + 0) % MAX_VEHICLES_PER_LANE = q.head := by
      simpa using Nat.mod_eq_of_lt hh
    rw [this]
  refine ⟨?_, ⟨?_, ?_, ?_⟩, ?_⟩
  · rw [hhd]
    simp [queue_dequeue, hemp]
  · simp [queue_dequeue, hemp]
    omega
  · simp [queue_dequeue, hemp, h64]
    omega
  · simp [queue_dequeue, hemp, ht, h64]
    omega
  · apply List.ext_getElem
    · simp [queue_dequeue, hemp, toList_length, List.length_tail]
    · intro i h1 h2
      rw [toList_getElem]
      have hi : i < q.count - 1 := by
        simpa [queue_dequeue, hemp, toList_length] using h1
      rw [List.getElem_tail, toList_getElem]
      have hL : ((queue_dequeue q).1.buf) = q.buf := by
        simp [queue_dequeue, hemp]
      have hH : ((queue_dequeue q).1.head) = (q.head + 1) % MAX_VEHICLES_PER_LANE := by
        simp [queue_dequeue, hemp]
      rw [hL, hH]
      congr 1
      rw [h64]
      omega

/-- The ring-buffer queue refines the bounded-FIFO list model along every
operation sequence. -/
lemma runOps_refines (ops : List QueueOp) :
    ∀ (q : VehicleQueue) (m : List Vehicle), QInv q → q.toList = m →
      QInv (runOps q ops).1 ∧ (runOps q ops).1.toList = (modelRun m ops).1 ∧
        (runOps q ops).2 = (modelRun m ops).2 := by
  induction ops with
  | nil =>
    intro q m hq habs
    exact ⟨hq, by simpa [runOps, modelRun], by simp [runOps, modelRun]⟩
  | cons op rest ih =>
    intro q m hq habs
    have hlen : m.length = q.count := by
      rw [← habs, toList_length]
    cases op with
    | enq v =>
      rcases Nat.lt_or_ge q.count MAX_VEHICLES_PER_LANE with hlt | hge
      · obtain ⟨_, hinv, htl⟩ := queue_enqueue_ok q v hq hlt
        have hm : modelEnq m v = m ++ [v] := by
          simp [modelEnq]
          omega
        have habs' : (queue_enqueue q v).1.toList = m ++ [v] := by
          rw [htl, habs]
        have h := ih (queue_enqueue q v).1 (m ++ [v]) hinv habs'
        simpa [runOps, modelRun, hm] using h
      · have hfull : queue_is_full q = true := by
          simp [queue_is_full]
          omega
        have henq : queue_enqueue q v = (q, false) := by
          simp [queue_enqueue, hfull]
        have hm : modelEnq m v = m := by
          simp [modelEnq]
          omega
        have h := ih q m hq habs
        simpa [runOps, modelRun, hm, henq] using h
    | deq =>
      rcases Nat.eq_zero_or_pos q.count with hz | hpos
      · have hemp : queue_is_empty q = true := by
          simp [queue_is_empty, hz]
        have hdeq : queue_dequeue q = (q, none) := by
          simp [queue_dequeue, hemp]
        have hm : m = [] := by
          have : m.length = 0 := by omega
          exact List.eq_nil_of_length_eq_zero this
        have h := ih q m hq habs
        subst hm
        simpa [runOps, modelRun, hdeq] using h
      · obtain ⟨hout, hinv, htl⟩ := queue_dequeue_ok q hq hpos
        have habs' : (queue_dequeue q).1.toList = m.tail := by
          rw [htl, habs]
        have h := ih (queue_dequeue q).1 m.tail hinv habs'
        refine ⟨h.1, ?_, ?_⟩
        · simpa [runOps, modelRun] using h.2.1
        · simp [runOps, modelRun]
          rw [hout, habs, h.2.2]

/-- C6: along every operation sequence from `queue_init`, the count never
exceeds the capacity (also at every intermediate prefix), the queue contents
and the dequeued vehicles coincide with the bounded-FIFO list model (so
dequeue order equals enqueue order, including across ring wraparound),
enqueue on a full queue fails without any mutation, and dequeue on an empty
queue yields `none` without any mutation. -/
theorem C6_queue_fifo_bounded (b : Nat → Vehicle) (ops : List QueueOp) :
    (runOps (queue_init b) ops).1.count ≤ MAX_VEHICLES_PER_LANE ∧
    (runOps (queue_init b) ops).1.toList = (modelRun [] ops).1 ∧
    (runOps (queue_init b) ops).2 = (modelRun [] ops).2 ∧
    (∀ pre suf, ops = pre ++ suf →
      (runOps (queue_init b) pre).1.count ≤ MAX_VEHICLES_PER_LANE) ∧
    (∀ (q : VehicleQueue) (v : Vehicle), queue_is_full q = true →
      queue_enqueue q v = (q, false)) ∧
    (∀ q : VehicleQueue, queue_is_empty q = true → queue_dequeue q = (q, none)) := by
  have hinit : QInv (queue_init b) := by
    refine ⟨by simp [queue_init, MAX_VEHICLES_PER_LANE], ?_, ?_⟩
    · simp [queue_init, MAX_VEHICLES_PER_LANE]
    · simp [queue_init]
  have habs : (queue_init b).toList = [] := by
    simp [VehicleQueue.toList, queue_init]
  have h := runOps_refines ops (queue_init b) [] hinit habs
  refine ⟨h.1.1, h.2.1, h.2.2, ?_, ?_, ?_⟩
  · intro pre suf _
    exact (runOps_refines pre (queue_init b) [] hinit habs).1.1
  · intro q v hfull
    simp [queue_enqueue, hfull]
  · intro q hemp
    simp [queue_dequeue, hemp]

/-- Witness for C6: enqueue two vehicles and dequeue twice; the vehicles come
back in enqueue order. -/
theorem C6_queue_fifo_bounded_witness :
    (runOps (queue_init (fun _ => default))
      [QueueOp.enq ⟨"a", .NORTH, .STRAIGHT, 0⟩, QueueOp.enq ⟨"b", .NORTH, .STRAIGHT, 1⟩,
       QueueOp.deq, QueueOp.deq]).2 =
      [⟨"a", .NORTH, .STRAIGHT, 0⟩, ⟨"b", .NORTH, .STRAIGHT, 1⟩] := by
  have h := C6_queue_fifo_bounded (fun _ => default)
    [QueueOp.enq ⟨"a", .NORTH, .STRAIGHT, 0⟩, QueueOp.enq ⟨"b", .NORTH, .STRAIGHT, 1⟩,
     QueueOp.deq, QueueOp.deq]
  rw [h.2.2.1]
  rfl

/-! ## C9 — lane mapping -/

/-- C9 counterexample: the claim asserts
`lane_for_movement MOVE_RIGHT = lane_for_movement MOVE_STRAIGHT`, but the code
assigns the two movements distinct lanes. -/
theorem C9_right_straight_share_lane_counterexample :
    lane_for_movement .RIGHT ≠ lane_for_movement .STRAIGHT := by
  decide

/-- C9 amended: `lane_for_movement` maps LEFT, STRAIGHT and RIGHT to the three
pairwise-distinct lane indices `LANE_LEFT`, `LANE_STRAIGHT` and `LANE_RIGHT`;
right turns get their own lane rather than sharing the straight lane (the two
lanes share main-phase eligibility, not an index). -/
theorem C9_lane_for_movement_amended :
    lane_for_movement .LEFT = .LEFT ∧ lane_for_movement .STRAIGHT = .STRAIGHT ∧
    lane_for_movement .RIGHT = .RIGHT ∧
    lane_for_movement .RIGHT ≠ lane_for_movement .LEFT ∧
    lane_for_movement .RIGHT ≠ lane_for_movement .STRAIGHT ∧
    lane_for_movement .STRAIGHT ≠ lane_for_movement .LEFT := by
  decide

/-! ## C10 — departure buffer bound -/

/-- Each iteration of the release loop appends at most two vehicles. -/
lemma release_fold_length (lights : Fin 4 → TrafficLight) (arrow : Bool) :
    ∀ (L : List RoadDir) (acc : (Fin 4 → Road) × List Vehicle),
      ((L.foldl (release_road lights arrow) acc).2).length ≤ acc.2.length + 2 * L.length := by
  intro L
  induction L with
  | nil =>
    intro acc
    simp
  | cons d L ih =>
    intro acc
    have hstep : (release_road lights arrow acc d).2.length ≤ acc.2.length + 2 := by
      unfold release_road
      split
      · split
        · simp
          cases (road_dequeue_lane (acc.1 d.index) .LEFT).2 <;> simp
        · simp
          cases (road_dequeue_lane (acc.1 d.index) .STRAIGHT).2 <;>
            cases (road_dequeue_lane (road_dequeue_lane (acc.1 d.index) .STRAIGHT).1 .RIGHT).2 <;>
              simp
      · simp
    calc ((L.foldl (release_road lights arrow) (release_road lights arrow acc d)).2).length
        ≤ (release_road lights arrow acc d).2.length + 2 * L.length := ih _
      _ ≤ acc.2.length + 2 + 2 * L.length := by omega
      _ = acc.2.length + 2 * (d :: L).length := by simp; ring

/-- C10: one `intersection_step` produces at most
`MAX_DEPARTURES_PER_STEP = MAX_ROADS_PER_PHASE * 2 = 4` departures, so the
caller's `departed[MAX_DEPARTURES_PER_STEP]` array is never overrun. -/
theorem C10_departures_bounded (inter : Intersection) :
    (intersection_step inter).2.length ≤ MAX_DEPARTURES_PER_STEP := by
  have hroads : ∀ p : Phase, (PHASE_INFO p).roads.length ≤ 2 := by decide
  unfold intersection_step
  set inter1 :=
    if inter.phase_steps_remaining = 0 then
      apply_phase inter (controller_next_phase inter)
    else inter with hinter1
  have h := release_fold_length inter1.lights (PHASE_INFO inter1.current_phase).is_arrow
    (PHASE_INFO inter1.current_phase).roads (inter1.roads, [])
  have h2 := hroads inter1.current_phase
  simp only [MAX_DEPARTURES_PER_STEP, MAX_ROADS_PER_PHASE]
  simp at h
  omega

/-! ## C7 — add-vehicle contract -/

/-- C7: `intersection_add_vehicle` rejects INVALID movements (in particular
every U-turn, leaving even the aggregate waiting count unchanged) and full
destination lanes with no state change at all; otherwise it enqueues exactly
the stamped vehicle (id truncated, `enqueue_step` = current step counter) into
the lane implied by the movement classification, touching nothing else. -/
theorem C7_add_vehicle_contract (inter : Intersection) (start dest : RoadDir)
    (id : String) :
    (movement_type start dest = .INVALID →
      intersection_add_vehicle inter start dest id = (inter, false)) ∧
    (start = dest →
      intersection_add_vehicle inter start dest id = (inter, false) ∧
      intersection_total_waiting (intersection_add_vehicle inter start dest id).1 =
        intersection_total_waiting inter) ∧
    (movement_type start dest ≠ .INVALID →
      MAX_VEHICLES_PER_LANE ≤
        ((inter.roads start.index).lanes
          (lane_for_movement (movement_type start dest))).count →
      intersection_add_vehicle inter start dest id = (inter, false)) ∧
    (movement_type start dest ≠ .INVALID →
      ((inter.roads start.index).lanes
        (lane_for_movement (movement_type start dest))).count < MAX_VEHICLES_PER_LANE →
      (intersection_add_vehicle inter start dest id).2 = true ∧
      ((intersection_add_vehicle inter start dest id).1.roads start.index).lanes
          (lane_for_movement (movement_type start dest)) =
        (queue_enqueue
          ((inter.roads start.index).lanes (lane_for_movement (movement_type start dest)))
          ⟨id.take (MAX_VEHICLE_ID_LEN - 1), dest, movement_type start dest,
            inter.step_count⟩).1 ∧
      (∀ (i : Fin 4) (lane : Lane),
        i ≠ start.index ∨ lane ≠ lane_for_movement (movement_type start dest) →
        ((intersection_add_vehicle inter start dest id).1.roads i).lanes lane =
          (inter.roads i).lanes lane) ∧
      (intersection_add_vehicle inter start dest id).1.lights = inter.lights ∧
      (intersection_add_vehicle inter start dest id).1.current_phase = inter.current_phase ∧
      (intersection_add_vehicle inter start dest id).1.phase_steps_remaining =
        inter.phase_steps_remaining ∧
      (intersection_add_vehicle inter start dest id).1.step_count = inter.step_count ∧
      (QInv ((inter.roads start.index).lanes (lane_for_movement (movement_type start dest))) →
        (((intersection_add_vehicle inter start dest id).1.roads start.index).lanes
            (lane_for_movement (movement_type start dest))).toList =
          ((inter.roads start.index).lanes
            (lane_for_movement (movement_type start dest))).toList ++
            [⟨id.take (MAX_VEHICLE_ID_LEN - 1), dest, movement_type start dest,
              inter.step_count⟩])) := by
  refine ⟨?_, ?_, ?_, ?_⟩
  · intro hmv
    simp [intersection_add_vehicle, hmv]
  · intro hse
    have hmv : movement_type start dest = .INVALID := by
      unfold movement_type
      rw [if_pos (Or.inr (Or.inr hse))]
    constructor
    · simp [intersection_add_vehicle, hmv]
    · simp [intersection_add_vehicle, hmv]
  · intro hmv hfull
    have hf : queue_is_full
        ((inter.roads start.index).lanes (lane_for_movement (movement_type start dest))) =
        true := by
      simp [queue_is_full]
      omega
    simp [intersection_add_vehicle, hmv, road_enqueue, queue_enqueue, hf,
      Function.update_eq_self]
  · intro hmv hnf
    have hf : queue_is_full
        ((inter.roads start.index).lanes (lane_for_movement (movement_type start dest))) =
        false := by
      simp [queue_is_full]
      omega
    refine ⟨?_, ?_, ?_, ?_, ?_, ?_, ?_, ?_⟩
    · simp [intersection_add_vehicle, hmv, road_enqueue, queue_enqueue, hf]
    · simp [intersection_add_vehicle, hmv, road_enqueue]
    · intro i lane hil
      rcases hil with hi | hl
      · simp [intersection_add_vehicle, hmv, road_enqueue, Function.update_noteq hi]
      · by_cases hi : i = start.index
        · subst hi
          simp [intersection_add_vehicle, hmv, road_enqueue, Function.update_noteq hl]
        · simp [intersection_add_vehicle, hmv, road_enqueue, Function.update_noteq hi]
    · simp [intersection_add_vehicle, hmv]
    · simp [intersection_add_vehicle, hmv]
    · simp [intersection_add_vehicle, hmv]
    · simp [intersection_add_vehicle, hmv]
    · intro hqinv
      have h := queue_enqueue_ok
        ((inter.roads start.index).lanes (lane_for_movement (movement_type start dest)))
        ⟨id.take (MAX_VEHICLE_ID_LEN - 1), dest, movement_type start dest, inter.step_count⟩
        hqinv hnf
      have hlane :
          ((intersection_add_vehicle inter start dest id).1.roads start.index).lanes
            (lane_for_movement (movement_type start dest)) =
          (queue_enqueue
            ((inter.roads start.index).lanes (lane_for_movement (movement_type start dest)))
            ⟨id.take (MAX_VEHICLE_ID_LEN - 1), dest, movement_type start dest,
              inter.step_count⟩).1 := by
        simp [intersection_add_vehicle, hmv, road_enqueue]
      rw [hlane]
      exact h.2.2

/-- Witness for C7: a U-turn on the fresh intersection is rejected without any
state change, and a valid movement is accepted. -/
theorem C7_add_vehicle_contract_witness :
    intersection_add_vehicle intersection_init .NORTH .NORTH "u" =
      (intersection_init, false) ∧
    (intersection_add_vehicle intersection_init .NORTH .SOUTH "v").2 = true := by
  constructor
  · exact ((C7_add_vehicle_contract intersection_init .NORTH .NORTH "u").2.1 rfl).1
  · exact ((C7_add_vehicle_contract intersection_init .NORTH .SOUTH "v").2.2.2
      (by decide) (by decide)).1

/-- Characterisation of the strict-improvement argmax fold of
`controller_next_phase`. -/
lemma argmax_fold_spec (g : Phase → Nat) (L : List Phase) :
    ∀ (b r : Phase × Nat), b.2 = g b.1 →
      r = L.foldl (fun best p => if best.2 < g p then (p, g p) else best) b →
      r.2 = g r.1 ∧ b.2 ≤ r.2 ∧ (∀ p ∈ L, g p ≤ r.2) ∧ (r.2 ≤ b.2 → r = b) ∧
        (b.2 < r.2 → ∃ pre post, L = pre ++ r.1 :: post ∧ ∀ p ∈ pre, g p < r.2) := by
  induction L with
  | nil =>
    intro b r hb hr
    subst hr
    exact ⟨hb, le_refl _, by simp, fun _ => rfl, fun hlt => absurd hlt (lt_irrefl _)⟩
  | cons p L ih =>
    intro b r hb hr
    by_cases h : b.2 < g p
    · have hb' : ((p, g p) : Phase × Nat).2 = g (p, g p).1 := rfl
      have hr' : r = L.foldl (fun best q => if best.2 < g q then (q, g q) else best) (p, g p) := by
        simpa [h] using hr
      obtain ⟨h1, h2, h3, h4, h5⟩ := ih (p, g p) r hb' hr'
      refine ⟨h1, by omega, ?_, ?_, ?_⟩
      · intro q hq
        rcases List.mem_cons.mp hq with hq | hq
        · subst hq
          simpa using h2
        · exact h3 q hq
      · intro hle
        exfalso
        simp at h2
        omega
      · intro _
        rcases Nat.lt_or_ge (g p) r.2 with hpr | hpr
        · obtain ⟨pre, post, hdec, hpre⟩ := h5 (by simpa using hpr)
          refine ⟨p :: pre, post, by rw [hdec, List.cons_append], ?_⟩
          intro q hq
          rcases List.mem_cons.mp hq with hq | hq
          · subst hq
            exact hpr
          · exact hpre q hq
        · have hrb : r = (p, g p) := h4 (by simpa using hpr)
          refine ⟨[], L, ?_, by simp⟩
          rw [hrb]
          simp
    · have hr' : r = L.foldl (fun best q => if best.2 < g q then (q, g q) else best) b := by
        simpa [h] using hr
      obtain ⟨h1, h2, h3, h4, h5⟩ := ih b r hb hr'
      refine ⟨h1, h2, ?_, h4, ?_⟩
      · intro q hq
        rcases List.mem_cons.mp hq with hq | hq
        · subst hq
          omega
        · exact h3 q hq
      · intro hlt
        obtain ⟨pre, post, hdec, hpre⟩ := h5 hlt
        refine ⟨p :: pre, post, by rw [hdec, List.cons_append], ?_⟩
        intro q hq
        rcases List.mem_cons.mp hq with hq | hq
        · subst hq
          omega
        · exact hpre q hq

/-- `find?` on a list that splits as `pre ++ a :: post` with the predicate
false throughout `pre` and true at `a` returns `a`. -/
lemma find?_append_first {α : Type} (P : α → Bool) (pre post : List α) (a : α)
    (hpre : ∀ p ∈ pre, P p = false) (ha : P a = true) :
    (pre ++ a :: post).find? P = some a := by
  induction pre with
  | nil =>
    simp [List.find?_cons, ha]
  | cons x xs ih =>
    have hx : P x = false := hpre x (by simp)
    rw [List.cons_append, List.find?_cons, hx]
    exact ih (fun q hq => hpre q (List.mem_cons_of_mem x hq))

/-- Every phase occurs in the loop order. -/
lemma mem_phaseList (p : Phase) : p ∈ phaseList := by
  cases p <;> simp [phaseList]

/-- C4 amended: `controller_next_phase` returns a phase attaining the maximum
score; the current phase is returned whenever it attains that maximum (in
particular on every tie involving the current phase and on the all-empty
intersection), and a unique strict maximiser is always selected. When the
current phase does not attain the top score — including ties between other
phases — the returned phase is the first phase, in the `PHASE_NS..PHASE_W_ARROW`
loop order of `phaseList`, whose score reaches the top score: the
lowest-indexed maximiser, not the current phase. -/
theorem C4_next_phase_selection_amended (inter : Intersection) :
    (∀ p : Phase, controller_phase_score inter p ≤
      controller_phase_score inter (controller_next_phase inter).phase) ∧
    (controller_phase_score inter (controller_next_phase inter).phase ≤
      controller_phase_score inter inter.current_phase →
      (controller_next_phase inter).phase = inter.current_phase) ∧
    (∀ p : Phase,
      (∀ q : Phase, q ≠ p →
        controller_phase_score inter q < controller_phase_score inter p) →
      (controller_next_phase inter).phase = p) ∧
    (controller_phase_score inter inter.current_phase <
      controller_phase_score inter (controller_next_phase inter).phase →
      phaseList.find?
        (fun p => decide (controller_phase_score inter (controller_next_phase inter).phase ≤
          controller_phase_score inter p)) =
        some (controller_next_phase inter).phase) := by
  set b : Phase × Nat :=
    (inter.current_phase, controller_phase_score inter inter.current_phase) with hbdef
  set r := phaseList.foldl
    (fun best p =>
      if best.2 < controller_phase_score inter p then (p, controller_phase_score inter p)
      else best) b with hrdef
  have hphase : (controller_next_phase inter).phase = r.1 := rfl
  obtain ⟨h1, h2, h3, h4, h5⟩ :=
    argmax_fold_spec (controller_phase_score inter) phaseList b r rfl hrdef
  have hmax : ∀ p : Phase,
      controller_phase_score inter p ≤
        controller_phase_score inter (controller_next_phase inter).phase := by
    intro p
    rw [hphase, ← h1]
    exact h3 p (mem_phaseList p)
  refine ⟨hmax, ?_, ?_, ?_⟩
  · intro hle
    rw [hphase]
    have : r.2 ≤ b.2 := by
      rw [h1]
      rw [hphase] at hle
      exact hle
    rw [h4 this]
  · intro p hp
    by_contra hne
    have := hp (controller_next_phase inter).phase hne
    have := hmax p
    omega
  · intro hlt
    have hb2 : b.2 < r.2 := by
      rw [h1, ← hphase]
      exact hlt
    obtain ⟨pre, post, hdec, hpre⟩ := h5 hb2
    rw [hphase, hdec]
    apply find?_append_first
    · intro q hq
      have hqlt : controller_phase_score inter q < controller_phase_score inter r.1 := by
        rw [← h1]
        exact hpre q hq
      simp only [decide_eq_false_iff_not]
      omega
    · simp

/-- Witness for C4: on the all-empty initial intersection every score ties at
0 and the current phase (NS) is kept; on the E/W-arrow tie beating the current
NS phase, the first maximiser in loop order is returned. -/
theorem C4_next_phase_selection_amended_witness :
    (controller_next_phase intersection_init).phase = intersection_init.current_phase ∧
    phaseList.find?
      (fun p => decide (controller_phase_score tieState (controller_next_phase tieState).phase ≤
        controller_phase_score tieState p)) =
      some (controller_next_phase tieState).phase := by
  constructor
  · exact (C4_next_phase_selection_amended intersection_init).2.1 (by decide)
  · exact (C4_next_phase_selection_amended tieState).2.2.2 (by decide)

/-- C4 counterexample: with the top score tied between the East-arrow and
West-arrow phases while the current phase is NS (score 0), the controller
returns E_ARROW, not the current phase — refuting the claim that ties in the
top score always resolve to the currently active phase. -/
theorem C4_tie_not_current_counterexample :
    controller_phase_score tieState .E_ARROW = controller_phase_score tieState .W_ARROW ∧
    Phase.E_ARROW ≠ Phase.W_ARROW ∧
    (∀ p : Phase,
      controller_phase_score tieState p ≤ controller_phase_score tieState .E_ARROW) ∧
    tieState.current_phase = .NS ∧
    (controller_next_phase tieState).phase = .E_ARROW ∧
    (controller_next_phase tieState).phase ≠ tieState.current_phase := by
  decide

/-- C5: evaluation at the failing input. All four lanes served by the chosen
NS phase are full (64 each, 256 vehicles in total, far above
`MAX_GREEN_STEPS`), yet `phase_vehicle_count` accumulates the total in a
`uint8_t`, wraps 256 to 0, and the returned duration is `MIN_GREEN_STEPS`
instead of the `MAX_GREEN_STEPS` the clamp rule demands. -/
theorem C5_duration_uint8_wrap_eval :
    road_lane_count (fullLoadState.roads RoadDir.NORTH.index) .STRAIGHT = 64 ∧
    road_lane_count (fullLoadState.roads RoadDir.NORTH.index) .RIGHT = 64 ∧
    road_lane_count (fullLoadState.roads RoadDir.SOUTH.index) .STRAIGHT = 64 ∧
    road_lane_count (fullLoadState.roads RoadDir.SOUTH.index) .RIGHT = 64 ∧
    (controller_next_phase fullLoadState).phase = .NS ∧
    phase_vehicle_count fullLoadState .NS = 0 ∧
    (controller_next_phase fullLoadState).duration = MIN_GREEN_STEPS ∧
    MIN_GREEN_STEPS ≠ MAX_GREEN_STEPS := by
  decide

lemma light_eq_mk (tl : TrafficLight) (st : LightState) (n : Nat)
    (h1 : tl.state = st) (h2 : tl.steps_remaining = n) : tl = ⟨st, n⟩ := by
  cases tl
  simp_all

lemma is_green_kind (info : PhaseInfo) (tl : TrafficLight)
    (h : tl.state = phaseKind info) : traffic_light_is_green tl = true := by
  cases harr : info.is_arrow <;>
    simp [phaseKind, harr] at h <;> simp [traffic_light_is_green, h]

lemma tick_kind_succ_succ (info : PhaseInfo) (n : Nat) :
    traffic_light_tick ⟨phaseKind info, n + 2⟩ = ⟨phaseKind info, n + 1⟩ := by
  cases harr : info.is_arrow
  · simp only [phaseKind, harr, Bool.false_eq_true, if_false]
    exact tick_green_succ_succ n
  · simp only [phaseKind, harr, if_true]
    exact tick_green_arrow_succ_succ n

lemma tick_kind_one (info : PhaseInfo) :
    traffic_light_tick ⟨phaseKind info, 1⟩ = ⟨.YELLOW, 1⟩ := by
  cases harr : info.is_arrow
  · simp only [phaseKind, harr, Bool.false_eq_true, if_false]
    simpa [YELLOW_STEPS] using tick_green_one
  · simp only [phaseKind, harr, if_true]
    simpa [YELLOW_STEPS] using tick_green_arrow_one

/-- A fold writing the same light value at every listed road index. -/
lemma foldl_update_const (val : TrafficLight) :
    ∀ (L : List RoadDir) (lights : Fin 4 → TrafficLight) (i : Fin 4),
      (L.foldl (fun ls dir => Function.update ls dir.index val) lights) i =
        if i ∈ L.map RoadDir.index then val else lights i := by
  intro L
  induction L with
  | nil =>
    intro lights i
    simp
  | cons d L ih =>
    intro lights i
    simp only [List.foldl_cons]
    rw [ih]
    by_cases hm : i ∈ L.map RoadDir.index
    · simp [hm]
    · by_cases hd : i = d.index
      · subst hd
        simp [hm, Function.update_same]
      · simp [hm, hd, Function.update_noteq hd]

/-- Effect of `apply_phase`'s light loop, pointwise. -/
lemma set_phase_lights_get (lights : Fin 4 → TrafficLight) (info : PhaseInfo)
    (duration : Nat) (i : Fin 4) :
    set_phase_lights lights info duration i =
      if i ∈ info.roads.map RoadDir.index then ⟨phaseKind info, duration⟩
      else lights i := by
  cases harr : info.is_arrow
  · have : set_phase_lights lights info duration =
        info.roads.foldl
          (fun ls dir => Function.update ls dir.index ⟨.GREEN, duration⟩) lights := by
      unfold set_phase_lights
      simp only [harr, Bool.false_eq_true, if_false]
      rfl
    rw [this, foldl_update_const]
    simp [phaseKind, harr]
  · have : set_phase_lights lights info duration =
        info.roads.foldl
          (fun ls dir => Function.update ls dir.index ⟨.GREEN_ARROW, duration⟩) lights := by
      unfold set_phase_lights
      simp only [harr, if_true]
      rfl
    rw [this, foldl_update_const]
    simp [phaseKind, harr]

/-- The chosen duration always lies in `[MIN_GREEN_STEPS, MAX_GREEN_STEPS]`. -/
lemma next_phase_duration_bounds (s : Intersection) :
    MIN_GREEN_STEPS ≤ (controller_next_phase s).duration ∧
      (controller_next_phase s).duration ≤ MAX_GREEN_STEPS := by
  have h : ∀ c : Nat,
      MIN_GREEN_STEPS ≤
        (if c < MIN_GREEN_STEPS then MIN_GREEN_STEPS
         else if MAX_GREEN_STEPS < c then MAX_GREEN_STEPS else c) ∧
      (if c < MIN_GREEN_STEPS then MIN_GREEN_STEPS
       else if MAX_GREEN_STEPS < c then MAX_GREEN_STEPS else c) ≤ MAX_GREEN_STEPS := by
    intro c
    unfold MIN_GREEN_STEPS MAX_GREEN_STEPS
    constructor <;> split_ifs <;> omega
  exact h _

/-- The step function's light-relevant fields, definitionally. -/
lemma intersection_step_light_fields (s : Intersection) :
    (intersection_step s).1.lights =
      (fun i => traffic_light_tick
        ((if s.phase_steps_remaining = 0 then
            apply_phase s (controller_next_phase s) else s).lights i)) ∧
    (intersection_step s).1.current_phase =
      (if s.phase_steps_remaining = 0 then
        apply_phase s (controller_next_phase s) else s).current_phase ∧
    (intersection_step s).1.phase_steps_remaining =
      (if 0 < (if s.phase_steps_remaining = 0 then
          apply_phase s (controller_next_phase s) else s).phase_steps_remaining then
        (if s.phase_steps_remaining = 0 then
          apply_phase s (controller_next_phase s) else s).phase_steps_remaining - 1
       else
        (if s.phase_steps_remaining = 0 then
          apply_phase s (controller_next_phase s) else s).phase_steps_remaining) :=
  ⟨rfl, rfl, rfl⟩

lemma LightInv_of_frame (s t : Intersection) (hl : t.lights = s.lights)
    (hp : t.current_phase = s.current_phase)
    (hr : t.phase_steps_remaining = s.phase_steps_remaining)
    (h : LightInv s) : LightInv t := by
  unfold LightInv at h ⊢
  rw [hl, hp, hr]
  exact h

lemma add_vehicle_light_frame (s : Intersection) (start dest : RoadDir) (id : String) :
    (intersection_add_vehicle s start dest id).1.lights = s.lights ∧
    (intersection_add_vehicle s start dest id).1.current_phase = s.current_phase ∧
    (intersection_add_vehicle s start dest id).1.phase_steps_remaining =
      s.phase_steps_remaining := by
  by_cases hmv : movement_type start dest = .INVALID <;>
    simp [intersection_add_vehicle, hmv]

lemma add_vehicle_by_lane_light_frame (s : Intersection) (road : RoadDir)
    (lane : Lane) (id : String) :
    (intersection_add_vehicle_by_lane s road lane id).1.lights = s.lights ∧
    (intersection_add_vehicle_by_lane s road lane id).1.current_phase = s.current_phase ∧
    (intersection_add_vehicle_by_lane s road lane id).1.phase_steps_remaining =
      s.phase_steps_remaining := by
  by_cases hrd : road = .NONE <;>
    simp [intersection_add_vehicle_by_lane, hrd]

lemma LightInv_init : LightInv intersection_init := by
  constructor
  · intro i
    exact Or.inl rfl
  · intro h
    exact absurd h (by decide)

/-- Preservation of the light invariant across one `intersection_step`. -/
lemma LightInv_step (s : Intersection) (h : LightInv s) :
    LightInv (intersection_step s).1 := by
  obtain ⟨hlights, hphase, hpsr⟩ := intersection_step_light_fields s
  by_cases hz : s.phase_steps_remaining = 0
  · -- repick: all lights are RED or final-step YELLOW, the new phase's lights
    -- are freshly set for `duration ≥ 2`
    have hRY : ∀ i : Fin 4, (s.lights i).state = .RED ∨
        ((s.lights i).state = .YELLOW ∧ (s.lights i).steps_remaining = 1) := by
      intro i
      rcases h.1 i with h1 | h2 | h3
      · exact Or.inl h1
      · exact Or.inr h2
      · exfalso
        omega
    set d := controller_next_phase s with hd
    have hd2 : 2 ≤ d.duration := by
      have := (next_phase_duration_bounds s).1
      simpa [MIN_GREEN_STEPS] using this
    have hap : ∀ i : Fin 4, (apply_phase s d).lights i =
        if i ∈ roadIdxs d.phase then ⟨phaseKind (PHASE_INFO d.phase), d.duration⟩
        else s.lights i := by
      intro i
      exact set_phase_lights_get s.lights (PHASE_INFO d.phase) d.duration i
    have hph2 : (intersection_step s).1.current_phase = d.phase := by
      rw [hphase]
      simp [hz, apply_phase]
    have hpsr2 : (intersection_step s).1.phase_steps_remaining = d.duration - 1 := by
      rw [hpsr]
      simp [hz, apply_phase]
      omega
    have hlight2 : ∀ i : Fin 4, (intersection_step s).1.lights i =
        traffic_light_tick ((apply_phase s d).lights i) := by
      intro i
      rw [hlights]
      simp [hz]
    obtain ⟨m, hm⟩ : ∃ m, d.duration = m + 2 := ⟨d.duration - 2, by omega⟩
    have hticked : ∀ i ∈ roadIdxs d.phase, (intersection_step s).1.lights i =
        ⟨phaseKind (PHASE_INFO d.phase), d.duration - 1⟩ := by
      intro i hi
      rw [hlight2 i, hap i, if_pos hi, hm, tick_kind_succ_succ]
      congr 1
    constructor
    · intro i
      by_cases hi : i ∈ roadIdxs d.phase
      · refine Or.inr (Or.inr ?_)
        rw [hticked i hi, hph2, hpsr2]
        refine ⟨rfl, is_green_kind _ _ rfl, rfl, by omega, by rw [hph2] at *; exact hi⟩
      · rw [hlight2 i, hap i, if_neg hi]
        rcases hRY i with h1 | h2
        · rw [tick_red _ h1]
          exact Or.inl h1
        · rw [light_eq_mk _ _ _ h2.1 h2.2, tick_yellow_one]
          exact Or.inl rfl
    · intro hpos i hi
      rw [hph2] at hi
      rw [hticked i hi, hph2, hpsr2]
      exact ⟨rfl, rfl⟩
  · -- mid-phase: everything just ticks
    have hpos : 1 ≤ s.phase_steps_remaining := by omega
    have hG4 := h.2 hpos
    have hph2 : (intersection_step s).1.current_phase = s.current_phase := by
      rw [hphase]
      simp [hz]
    have hpsr2 : (intersection_step s).1.phase_steps_remaining =
        s.phase_steps_remaining - 1 := by
      rw [hpsr]
      simp [hz]
    have hlight2 : ∀ i : Fin 4, (intersection_step s).1.lights i =
        traffic_light_tick (s.lights i) := by
      intro i
      rw [hlights]
      simp [hz]
    constructor
    · intro i
      by_cases hi : i ∈ roadIdxs s.current_phase
      · have hmk := light_eq_mk _ _ _ (hG4 i hi).1 (hG4 i hi).2
        rcases Nat.lt_or_ge s.phase_steps_remaining 2 with hlt | hge
        · have h1 : s.phase_steps_remaining = 1 := by omega
          rw [hlight2 i, hmk, h1, tick_kind_one]
          exact Or.inr (Or.inl ⟨rfl, rfl⟩)
        · obtain ⟨m, hm⟩ : ∃ m, s.phase_steps_remaining = m + 2 :=
            ⟨s.phase_steps_remaining - 2, by omega⟩
          refine Or.inr (Or.inr ?_)
          rw [hlight2 i, hmk, hm, tick_kind_succ_succ, hph2, hpsr2]
          refine ⟨rfl, is_green_kind _ _ rfl, by simp [hm], by omega, hi⟩
      · rcases h.1 i with h1 | h2 | h3
        · rw [hlight2 i, tick_red _ h1]
          exact Or.inl h1
        · rw [hlight2 i, light_eq_mk _ _ _ h2.1 h2.2, tick_yellow_one]
          exact Or.inl rfl
        · exact absurd h3.2.2.2.2 hi
    · intro hp2 i hi
      rw [hpsr2] at hp2
      rw [hph2] at hi
      have hmk := light_eq_mk _ _ _ (hG4 i hi).1 (hG4 i hi).2
      obtain ⟨m, hm⟩ : ∃ m, s.phase_steps_remaining = m + 2 :=
        ⟨s.phase_steps_remaining - 2, by omega⟩
      rw [hlight2 i, hmk, hm, tick_kind_succ_succ, hph2, hpsr2]
      exact ⟨rfl, by simp [hm]⟩

/-- Every reachable state satisfies the light invariant. -/
lemma LightInv_reachable (s : Intersection) (h : Reachable s) : LightInv s := by
  induction h with
  | init => exact LightInv_init
  | add s start dest id _ ih =>
    obtain ⟨h1, h2, h3⟩ := add_vehicle_light_frame s start dest id
    exact LightInv_of_frame s _ h1 h2 h3 ih
  | addByLane s road lane id _ ih =>
    obtain ⟨h1, h2, h3⟩ := add_vehicle_by_lane_light_frame s road lane id
    exact LightInv_of_frame s _ h1 h2 h3 ih
  | step s _ ih => exact LightInv_step s ih

/-- C8 counterexample: at the reachable state after two empty steps the phase
counter is 0, so the third `intersection_step` invokes
`traffic_light_set_green` on the lights of the newly decided phase (NS again)
— and the NORTH light is YELLOW at that instant, not RED. -/
theorem C8_yellow_regreen_counterexample :
    Reachable twoStepState ∧
    twoStepState.phase_steps_remaining = 0 ∧
    (controller_next_phase twoStepState).phase = .NS ∧
    RoadDir.NORTH.index ∈ roadIdxs .NS ∧
    (twoStepState.lights RoadDir.NORTH.index).state = .YELLOW ∧
    (twoStepState.lights RoadDir.NORTH.index).state ≠ .RED := by
  refine ⟨?_, by decide, by decide, by decide, by decide, by decide⟩
  exact Reachable.step _ (Reachable.step _ Reachable.init)

/-- C8 amended: in every reachable state in which `intersection_step` is about
to (re)activate a phase (`phase_steps_remaining = 0`, the only situation in
which the engine invokes `traffic_light_set_green` or
`traffic_light_set_green_arrow`), every light — in particular each light being
set — is either RED or YELLOW in its final yellow step; it is never GREEN or
GREEN_ARROW, so a light is never re-activated while green. -/
theorem C8_activation_never_green_amended (s : Intersection) (h : Reachable s)
    (hz : s.phase_steps_remaining = 0) (i : Fin 4) :
    ((s.lights i).state = .RED ∨
      ((s.lights i).state = .YELLOW ∧ (s.lights i).steps_remaining = 1)) ∧
    traffic_light_is_green (s.lights i) = false := by
  have hinv := LightInv_reachable s h
  rcases hinv.1 i with h1 | h2 | h3
  · exact ⟨Or.inl h1, by simp [traffic_light_is_green, h1]⟩
  · exact ⟨Or.inr h2, by simp [traffic_light_is_green, h2.1]⟩
  · exfalso
    omega

/-- Witness for C8 at the freshly initialised intersection (counter 0, light 0
RED). -/
theorem C8_activation_never_green_amended_witness :
    ((intersection_init.lights 0).state = .RED ∨
      ((intersection_init.lights 0).state = .YELLOW ∧
        (intersection_init.lights 0).steps_remaining = 1)) ∧
    traffic_light_is_green (intersection_init.lights 0) = false :=
  C8_activation_never_green_amended intersection_init Reachable.init rfl 0

/-- C1 counterexample: at the reachable initial state every light is RED, so
the green set is empty — and the empty set is no phase's road set, refuting
the claim that at any instant the green set corresponds to exactly one phase's
road set. -/
theorem C1_all_red_counterexample :
    Reachable intersection_init ∧
    green_set intersection_init = ∅ ∧
    (∀ p : Phase, (roadIdxs p).toFinset ≠ (∅ : Finset (Fin 4))) := by
  refine ⟨Reachable.init, by decide, by decide⟩

/-- C1 amended: in every reachable state the set of green roads is either
empty (at initialisation and in the one step between a phase's expiry and its
successor's activation) or exactly the current phase's road set — never a
mixture of two phases, so no two conflicting lanes are simultaneously green. -/
theorem C1_green_set_amended (s : Intersection) (h : Reachable s) :
    green_set s = ∅ ∨ green_set s = (roadIdxs s.current_phase).toFinset := by
  have hinv := LightInv_reachable s h
  by_cases hz : 1 ≤ s.phase_steps_remaining
  · right
    ext i
    simp only [green_set, Finset.mem_filter, Finset.mem_univ, true_and,
      List.mem_toFinset]
    constructor
    · intro hg
      rcases hinv.1 i with h1 | h2 | h3
      · simp [traffic_light_is_green, h1] at hg
      · simp [traffic_light_is_green, h2.1] at hg
      · exact h3.2.2.2.2
    · intro hm
      exact is_green_kind _ _ ((hinv.2 hz i hm).1)
  · left
    ext i
    simp only [green_set, Finset.mem_filter, Finset.mem_univ, true_and,
      Finset.not_mem_empty, iff_false]
    intro hg
    rcases hinv.1 i with h1 | h2 | h3
    · simp [traffic_light_is_green, h1] at hg
    · simp [traffic_light_is_green, h2.1] at hg
    · omega

/-- Witness for C1 at the state after one step from a loaded intersection: the
NS phase is active and the green set is exactly its road set. -/
theorem C1_green_set_amended_witness :
    green_set (intersection_step intersection_init).1 = ∅ ∨
    green_set (intersection_step intersection_init).1 =
      (roadIdxs (intersection_step intersection_init).1.current_phase).toFinset :=
  C1_green_set_amended (intersection_step intersection_init).1
    (Reachable.step _ Reachable.init)

/-! ## C3 — the vehicle-release step -/

/-- Dequeue reports exactly what peek sees. -/
lemma queue_dequeue_snd_eq_peek (q : VehicleQueue) :
    (queue_dequeue q).2 = queue_peek q := by
  unfold queue_dequeue queue_peek
  split <;> rfl

/-- Characterisation of the release loop when every listed road (all distinct)
is green: the departures are the present front vehicles of the served lanes in
road-then-lane order, the served lanes are popped, and nothing else changes. -/
lemma release_fold_spec (lights : Fin 4 → TrafficLight) (arrow : Bool) :
    ∀ (L : List RoadDir) (roads : Fin 4 → Road) (dep : List Vehicle),
      (L.map RoadDir.index).Nodup →
      (∀ d ∈ L, traffic_light_is_green (lights d.index) = true) →
      ((L.foldl (release_road lights arrow) (roads, dep)).2 =
        dep ++ (L.map (fun dir =>
          (servedLanes arrow).filterMap
            (fun lane => queue_peek ((roads dir.index).lanes lane)))).flatten) ∧
      (∀ (i : Fin 4) (lane : Lane),
        ((L.foldl (release_road lights arrow) (roads, dep)).1 i).lanes lane =
          if i ∈ L.map RoadDir.index ∧ lane ∈ servedLanes arrow
          then (queue_dequeue ((roads i).lanes lane)).1
          else (roads i).lanes lane) := by
  intro L
  induction L with
  | nil =>
    intro roads dep _ _
    constructor
    · simp
    · intro i lane
      simp
  | cons d L ih =>
    intro roads dep hnd hg
    have hgd : traffic_light_is_green (lights d.index) = true := hg d (by simp)
    have hnd0 : d.index ∉ L.map RoadDir.index ∧ (L.map RoadDir.index).Nodup :=
      List.nodup_cons.mp hnd
    have hg' : ∀ e ∈ L, traffic_light_is_green (lights e.index) = true := by
      intro e he
      exact hg e (List.mem_cons_of_mem d he)
    by_cases harr : arrow = false
    · subst harr
      -- main phase: straight then right
      have e1 : release_road lights false (roads, dep) d =
          (Function.update roads d.index
            ⟨Function.update
              (Function.update (roads d.index).lanes .STRAIGHT
                (queue_dequeue ((roads d.index).lanes .STRAIGHT)).1)
              .RIGHT (queue_dequeue ((roads d.index).lanes .RIGHT)).1⟩,
           dep ++ ((queue_peek ((roads d.index).lanes .STRAIGHT)).toList ++
             (queue_peek ((roads d.index).lanes .RIGHT)).toList)) := by
        simp [release_road, hgd, road_dequeue_lane, queue_dequeue_snd_eq_peek,
          Function.update_noteq]
      obtain ⟨ihdep, ihframe⟩ := ih
        (Function.update roads d.index
          ⟨Function.update
            (Function.update (roads d.index).lanes .STRAIGHT
              (queue_dequeue ((roads d.index).lanes .STRAIGHT)).1)
            .RIGHT (queue_dequeue ((roads d.index).lanes .RIGHT)).1⟩)
        (dep ++ ((queue_peek ((roads d.index).lanes .STRAIGHT)).toList ++
          (queue_peek ((roads d.index).lanes .RIGHT)).toList))
        hnd0.2 hg'
      have hroadeq : ∀ e ∈ L,
          (Function.update roads d.index
            ⟨Function.update
              (Function.update (roads d.index).lanes .STRAIGHT
                (queue_dequeue ((roads d.index).lanes .STRAIGHT)).1)
              .RIGHT (queue_dequeue ((roads d.index).lanes .RIGHT)).1⟩) e.index =
            roads e.index := by
        intro e he
        have hne : e.index ≠ d.index := by
          intro hcontra
          exact hnd0.1 (hcontra ▸ List.mem_map_of_mem RoadDir.index he)
        exact Function.update_noteq hne _ _
      constructor
      · rw [List.foldl_cons, e1, ihdep]
        simp only [List.map_cons, List.flatten_cons, servedLanes,
          Bool.false_eq_true, if_false]
        rw [List.map_congr_left (fun e he => by rw [hroadeq e he])]
        have hfm : List.filterMap
            (fun lane => queue_peek ((roads d.index).lanes lane))
            [Lane.STRAIGHT, Lane.RIGHT] =
            (queue_peek ((roads d.index).lanes .STRAIGHT)).toList ++
              (queue_peek ((roads d.index).lanes .RIGHT)).toList := by
          cases h1 : queue_peek ((roads d.index).lanes .STRAIGHT) <;>
            cases h2 : queue_peek ((roads d.index).lanes .RIGHT) <;>
              simp [List.filterMap, h1, h2]
        rw [hfm]
        simp
      · intro i lane
        rw [List.foldl_cons, e1, ihframe i lane]
        by_cases hiL : i ∈ L.map RoadDir.index
        · have hne : i ≠ d.index := by
            intro hcontra
            exact hnd0.1 (hcontra ▸ hiL)
          have hmem : i ∈ (d :: L).map RoadDir.index :=
            List.mem_cons_of_mem d.index hiL
          by_cases hlane : lane ∈ servedLanes false
          · rw [if_pos ⟨hiL, hlane⟩, if_pos ⟨hmem, hlane⟩, Function.update_noteq hne]
          · rw [if_neg (fun hc => hlane hc.2), if_neg (fun hc => hlane hc.2),
              Function.update_noteq hne]
        · by_cases hid : i = d.index
          · subst hid
            rw [if_neg (fun hc => hiL hc.1), Function.update_same]
            by_cases hlane : lane ∈ servedLanes false
            · have hmem : d.index ∈ (d :: L).map RoadDir.index := by
                simp
              rw [if_pos ⟨hmem, hlane⟩]
              simp only [servedLanes, Bool.false_eq_true, if_false,
                List.mem_cons, List.mem_singleton] at hlane
              rcases hlane with hS | hR
              · subst hS
                simp [Function.update]
              · have hR2 : lane = Lane.RIGHT := by
                  simpa using hR
                subst hR2
                simp [Function.update]
            · rw [if_neg (fun hc => hlane hc.2)]
              simp only [servedLanes, Bool.false_eq_true, if_false,
                List.mem_cons, List.mem_singleton] at hlane
              push_neg at hlane
              simp [Function.update, hlane.1, hlane.2]
          · have hmem : i ∉ (d :: L).map RoadDir.index := by
              intro hc
              rcases List.mem_cons.mp hc with h1 | h1
              · exact hid h1
              · exact hiL h1
            rw [if_neg (fun hc => hiL hc.1), if_neg (fun hc => hmem hc.1),
              Function.update_noteq hid]
    · -- arrow phase: left lane only
      have harr2 : arrow = true := by
        simpa using harr
      subst harr2
      have e1 : release_road lights true (roads, dep) d =
          (Function.update roads d.index
            ⟨Function.update (roads d.index).lanes .LEFT
              (queue_dequeue ((roads d.index).lanes .LEFT)).1⟩,
           dep ++ (queue_peek ((roads d.index).lanes .LEFT)).toList) := by
        simp [release_road, hgd, road_dequeue_lane, queue_dequeue_snd_eq_peek]
      obtain ⟨ihdep, ihframe⟩ := ih
        (Function.update roads d.index
          ⟨Function.update (roads d.index).lanes .LEFT
            (queue_dequeue ((roads d.index).lanes .LEFT)).1⟩)
        (dep ++ (queue_peek ((roads d.index).lanes .LEFT)).toList)
        hnd0.2 hg'
      have hroadeq : ∀ e ∈ L,
          (Function.update roads d.index
            ⟨Function.update (roads d.index).lanes .LEFT
              (queue_dequeue ((roads d.index).lanes .LEFT)).1⟩) e.index =
            roads e.index := by
        intro e he
        have hne : e.index ≠ d.index := by
          intro hcontra
          exact hnd0.1 (hcontra ▸ List.mem_map_of_mem RoadDir.index he)
        exact Function.update_noteq hne _ _
      constructor
      · rw [List.foldl_cons, e1, ihdep]
        simp only [List.map_cons, List.flatten_cons, servedLanes, if_true]
        rw [List.map_congr_left (fun e he => by rw [hroadeq e he])]
        have hfm : List.filterMap
            (fun lane => queue_peek ((roads d.index).lanes lane)) [Lane.LEFT] =
            (queue_peek ((roads d.index).lanes .LEFT)).toList := by
          cases h1 : queue_peek ((roads d.index).lanes .LEFT) <;>
            simp [List.filterMap, h1]
        rw [hfm]
        simp
      · intro i lane
        rw [List.foldl_cons, e1, ihframe i lane]
        by_cases hiL : i ∈ L.map RoadDir.index
        · have hne : i ≠ d.index := by
            intro hcontra
            exact hnd0.1 (hcontra ▸ hiL)
          have hmem : i ∈ (d :: L).map RoadDir.index :=
            List.mem_cons_of_mem d.index hiL
          by_cases hlane : lane ∈ servedLanes true
          · rw [if_pos ⟨hiL, hlane⟩, if_pos ⟨hmem, hlane⟩, Function.update_noteq hne]
          · rw [if_neg (fun hc => hlane hc.2), if_neg (fun hc => hlane hc.2),
              Function.update_noteq hne]
        · by_cases hid : i = d.index
          · subst hid
            rw [if_neg (fun hc => hiL hc.1), Function.update_same]
            by_cases hlane : lane ∈ servedLanes true
            · have hmem : d.index ∈ (d :: L).map RoadDir.index := by
                simp
              rw [if_pos ⟨hmem, hlane⟩]
              have hL2 : lane = Lane.LEFT := by
                simpa [servedLanes] using hlane
              subst hL2
              simp [Function.update]
            · rw [if_neg (fun hc => hlane hc.2)]
              have hL2 : lane ≠ Lane.LEFT := by
                intro hc
                exact hlane (by simp [servedLanes, hc])
              simp [Function.update, hL2]
          · have hmem : i ∉ (d :: L).map RoadDir.index := by
              intro hc
              rcases List.mem_cons.mp hc with h1 | h1
              · exact hid h1
              · exact hiL h1
            rw [if_neg (fun hc => hiL hc.1), if_neg (fun hc => hmem hc.1),
              Function.update_noteq hid]

/-- The road lists of the phase table are duplicate-free. -/
lemma roadIdxs_nodup (p : Phase) : (roadIdxs p).Nodup := by
  cases p <;> decide

/-- Release characterisation of `intersection_step`, given that every road of
the phase active during release is green. -/
lemma intersection_step_release (s : Intersection)
    (hg : ∀ dir ∈ (PHASE_INFO (activePhase s)).roads,
      traffic_light_is_green
        ((if s.phase_steps_remaining = 0 then
            apply_phase s (controller_next_phase s) else s).lights dir.index) = true) :
    (intersection_step s).2 =
      ((PHASE_INFO (activePhase s)).roads.map (fun dir =>
        (servedLanes (PHASE_INFO (activePhase s)).is_arrow).filterMap
          (fun lane => queue_peek ((s.roads dir.index).lanes lane)))).flatten ∧
    (∀ (i : Fin 4) (lane : Lane),
      ((intersection_step s).1.roads i).lanes lane =
        if i ∈ roadIdxs (activePhase s) ∧
            lane ∈ servedLanes (PHASE_INFO (activePhase s)).is_arrow
        then (queue_dequeue ((s.roads i).lanes lane)).1
        else (s.roads i).lanes lane) := by
  have hph : (if s.phase_steps_remaining = 0 then
      apply_phase s (controller_next_phase s) else s).current_phase = activePhase s := by
    by_cases hz : s.phase_steps_remaining = 0 <;> simp [activePhase, hz, apply_phase]
  have hrd : (if s.phase_steps_remaining = 0 then
      apply_phase s (controller_next_phase s) else s).roads = s.roads := by
    by_cases hz : s.phase_steps_remaining = 0 <;> simp [hz, apply_phase]
  have h2 : (intersection_step s).2 =
      ((PHASE_INFO ((if s.phase_steps_remaining = 0 then
          apply_phase s (controller_next_phase s) else s).current_phase)).roads.foldl
        (release_road
          ((if s.phase_steps_remaining = 0 then
              apply_phase s (controller_next_phase s) else s).lights)
          ((PHASE_INFO ((if s.phase_steps_remaining = 0 then
              apply_phase s (controller_next_phase s) else s).current_phase)).is_arrow))
        (((if s.phase_steps_remaining = 0 then
            apply_phase s (controller_next_phase s) else s).roads), [])).2 := rfl
  have h1 : ∀ i : Fin 4, (intersection_step s).1.roads i =
      ((PHASE_INFO ((if s.phase_steps_remaining = 0 then
          apply_phase s (controller_next_phase s) else s).current_phase)).roads.foldl
        (release_road
          ((if s.phase_steps_remaining = 0 then
              apply_phase s (controller_next_phase s) else s).lights)
          ((PHASE_INFO ((if s.phase_steps_remaining = 0 then
              apply_phase s (controller_next_phase s) else s).current_phase)).is_arrow))
        (((if s.phase_steps_remaining = 0 then
            apply_phase s (controller_next_phase s) else s).roads), [])).1 i :=
    fun i => rfl
  rw [hph, hrd] at h2 h1
  obtain ⟨hdep, hframe⟩ := release_fold_spec
    ((if s.phase_steps_remaining = 0 then
        apply_phase s (controller_next_phase s) else s).lights)
    ((PHASE_INFO (activePhase s)).is_arrow)
    ((PHASE_INFO (activePhase s)).roads) s.roads [] (roadIdxs_nodup (activePhase s)) hg
  constructor
  · rw [h2, hdep]
    simp
  · intro i lane
    rw [h1 i, hframe i lane]
    rfl

/-- C3: for every reachable state, one `intersection_step` call dequeues
exactly the front vehicle of each lane the (possibly freshly activated) phase
serves — the left lane alone for an arrow phase, the straight then the right
lane for a main phase — appending the vehicles that were present to the
departure list in road-then-lane order; an empty served lane contributes
nothing, and no other lane of any road is dequeued. -/
theorem C3_release_served_lanes (s : Intersection) (h : Reachable s) :
    (intersection_step s).2 =
      ((PHASE_INFO (activePhase s)).roads.map (fun dir =>
        (servedLanes (PHASE_INFO (activePhase s)).is_arrow).filterMap
          (fun lane => queue_peek ((s.roads dir.index).lanes lane)))).flatten ∧
    (∀ (i : Fin 4) (lane : Lane),
      ((intersection_step s).1.roads i).lanes lane =
        if i ∈ roadIdxs (activePhase s) ∧
            lane ∈ servedLanes (PHASE_INFO (activePhase s)).is_arrow
        then (queue_dequeue ((s.roads i).lanes lane)).1
        else (s.roads i).lanes lane) := by
  apply intersection_step_release
  intro dir hdir
  by_cases hz : s.phase_steps_remaining = 0
  · have hlights : (if s.phase_steps_remaining = 0 then
        apply_phase s (controller_next_phase s) else s).lights =
        set_phase_lights s.lights (PHASE_INFO (controller_next_phase s).phase)
          (controller_next_phase s).duration := by
      simp [hz, apply_phase]
    have hap : activePhase s = (controller_next_phase s).phase := by
      simp [activePhase, hz]
    rw [hlights, set_phase_lights_get]
    have hmem : dir.index ∈
        (PHASE_INFO (controller_next_phase s).phase).roads.map RoadDir.index := by
      rw [← hap]
      exact List.mem_map_of_mem RoadDir.index hdir
    rw [if_pos hmem]
    exact is_green_kind _ _ rfl
  · have hinv := LightInv_reachable s h
    have hpos : 1 ≤ s.phase_steps_remaining := by omega
    have hap : activePhase s = s.current_phase := by
      simp [activePhase, hz]
    have hmem : dir.index ∈ roadIdxs s.current_phase := by
      rw [← hap]
      exact List.mem_map_of_mem RoadDir.index hdir
    have hkind := (hinv.2 hpos dir.index hmem).1
    have hgreen := is_green_kind _ _ hkind
    simpa [hz] using hgreen

set_option maxRecDepth 10000 in
/-- Witness for C3: with one straight vehicle on North and one on South, the
first step activates NS and releases both, North's first (road-then-lane
order). -/
theorem C3_release_served_lanes_witness :
    (intersection_step addedState).2 =
      [⟨"v2", .SOUTH, .STRAIGHT, 0⟩, ⟨"v1", .NORTH, .STRAIGHT, 0⟩] := by
  have h := C3_release_served_lanes addedState
    (Reachable.add _ _ _ _ (Reachable.add _ _ _ _ Reachable.init))
  rw [h.1]
  decide

end TrafficSim
